import Mathlib

/-!
Shallow embedding of `src/spotify_functions.py` (repository
davherdel/Frequency_Analysis).

A pandas DataFrame is modelled as a `Table`: an ordered column-name list
together with an ordered list of rows, each row a list of cells aligned
with the columns.  A cell is `Option Value`; `none` models a missing value
(NaN).  A Python exception that escapes a function is modelled as
`Except.error`; a caught-and-reported failure is modelled as a sentinel
(`none`, `(none, none)`) in the return value.  `print` diagnostics are
modelled as a `List Msg` log paired with the result.
-/

inductive Value
  | str (s : String)
  | int (n : Int)
  | bool (b : Bool)
  deriving DecidableEq

abbrev Cell := Option Value

/-- Cell `j` of a row; out-of-range reads give `none` (missing). -/
def cellAt (r : List Cell) (j : Nat) : Cell := r.getD j none

structure Table where
  cols : List String
  rows : List (List Cell)
  deriving DecidableEq

def Table.nrows (t : Table) : Nat := t.rows.length
def Table.ncols (t : Table) : Nat := t.cols.length

/-- Well-formed: every row has exactly one cell per column. -/
def Table.WF (t : Table) : Prop := ∀ r ∈ t.rows, r.length = t.cols.length

instance (t : Table) : Decidable t.WF := by
  unfold Table.WF; infer_instance

/-- Index of the first column with the given name (pandas column lookup). -/
def colIdx : List String → String → Option Nat
  | [], _ => none
  | c :: cs, d => if c = d then some 0 else (colIdx cs d).map (· + 1)

/-- Cell of row `i`, column `c`; `none` when the column or row is absent. -/
def Table.getCell (t : Table) (i : Nat) (c : String) : Option Cell :=
  (colIdx t.cols c).bind fun j => (t.rows.get? i).map fun r => cellAt r j

/-- Diagnostics printed by the Python functions. -/
inductive Msg
  | originalShape (r c : Nat)
  | shapeAfterNA (r c : Nat)
  | droppedIndex
  | foundDuplicates (n : Nat)
  | finalShape (r c : Nat)
  | loaded (path : String) (rows : Nat)
  | fileNotFound (path : String)
  | createdIsHit (threshold : Int)
  | hitDistribution (hits nonHits : Nat)
  | foundPlaylist (id name : String)
  | noPlaylist (query : String)
  | connected
  | connectFailed
  deriving DecidableEq

/-- A Python exception escaping to the caller. -/
inductive PdError
  | keyError (col : String)
  | fileNotFound
  deriving DecidableEq

instance {ε α : Type} [DecidableEq ε] [DecidableEq α] :
    DecidableEq (Except ε α) := fun x y =>
  match x, y with
  | .ok a, .ok b => decidable_of_iff (a = b) ⟨fun h => h ▸ rfl, Except.ok.inj⟩
  | .error a, .error b =>
    decidable_of_iff (a = b) ⟨fun h => h ▸ rfl, Except.error.inj⟩
  | .ok _, .error _ => isFalse Except.noConfusion
  | .error _, .ok _ => isFalse Except.noConfusion

/-- `df.dropna()`: keep exactly the rows with no missing cell. -/
def Table.dropna (t : Table) : Table :=
  { cols := t.cols, rows := t.rows.filter (fun r => r.all (·.isSome)) }

/-- `df.drop(columns=[c])`: remove every column labelled `c`. -/
def Table.dropCol (t : Table) (c : String) : Table :=
  let keep := (List.range t.cols.length).filter (fun j => t.cols.getD j "" ≠ c)
  { cols := keep.map (fun j => t.cols.getD j ""),
    rows := t.rows.map (fun r => keep.map (fun j => cellAt r j)) }

/-- The guarded index-column drop inside `clean_data`. -/
def Table.postDropIndex (t : Table) : Table :=
  if "index" ∈ t.cols then t.dropCol "index" else t

/-- `df.duplicated(subset=[col j])` flags: a row is flagged when an earlier
row has the same key cell. -/
def dupFlags (j : Nat) : List (List Cell) → List Cell → List Bool
  | [], _ => []
  | r :: rs, seen => decide (cellAt r j ∈ seen) :: dupFlags j rs (cellAt r j :: seen)

/-- `df.duplicated(subset=[col j]).sum()`. -/
def countDup (j : Nat) (rows : List (List Cell)) : Nat :=
  (dupFlags j rows []).count true

/-- `df.drop_duplicates(subset=[col j], keep='first')` on the rows. -/
def dedupFirst (j : Nat) : List (List Cell) → List Cell → List (List Cell)
  | [], _ => []
  | r :: rs, seen =>
    if cellAt r j ∈ seen then dedupFirst j rs seen
    else r :: dedupFirst j rs (cellAt r j :: seen)

/-- `clean_data(df)` from `src/spotify_functions.py`: drop rows with missing
values, drop the `index` column if present, then (when any exist) drop
duplicate `track_id` rows keeping the first; the duplicate lookup raises
`KeyError` when `track_id` is absent. -/
def clean_data (df : Table) : List Msg × Except PdError Table :=
  let dfc := df.dropna
  let d2 := dfc.postDropIndex
  let log0 := [Msg.originalShape df.nrows df.ncols,
               Msg.shapeAfterNA dfc.nrows dfc.ncols]
      ++ (if "index" ∈ dfc.cols then [Msg.droppedIndex] else [])
  match colIdx d2.cols "track_id" with
  | none => (log0, .error (.keyError "track_id"))
  | some tj =>
    let n := countDup tj d2.rows
    let d3 : Table :=
      if 0 < n then { cols := d2.cols, rows := dedupFirst tj d2.rows [] } else d2
    (log0 ++ (if 0 < n then [Msg.foundDuplicates n] else [])
          ++ [Msg.finalShape d3.nrows d3.ncols],
     .ok d3)

/-- `series > threshold` on one cell: an integer compares numerically, a
missing value (NaN) compares false. -/
def cellGtInt (c : Cell) (k : Int) : Bool :=
  match c with
  | some (Value.int n) => decide (k < n)
  | _ => false

/-- `df[c] = series` where the series is computed row-wise from `df` itself:
overwrite the column when present, else append it. -/
def Table.setCol (t : Table) (c : String) (f : List Cell → Cell) : Table :=
  match colIdx t.cols c with
  | some j => { cols := t.cols, rows := t.rows.map (fun r => r.set j (f r)) }
  | none => { cols := t.cols ++ [c], rows := t.rows.map (fun r => r ++ [f r]) }

/-- The `is_hit` cell computed for one row by `define_hit_songs`. -/
def hitCell (p : Nat) (threshold : Int) (r : List Cell) : Cell :=
  some (Value.int (if cellGtInt (cellAt r p) threshold then 1 else 0))

/-- `define_hit_songs(df, threshold=87)`: `df['is_hit'] =
(df['popularity'] > threshold).astype(int)` — raises `KeyError` when
`popularity` is absent, otherwise writes the column in place and reports
the hit distribution. -/
def define_hit_songs (df : Table) (threshold : Int := 87) :
    List Msg × Except PdError Table :=
  match colIdx df.cols "popularity" with
  | none => ([], .error (.keyError "popularity"))
  | some p =>
    let df2 := df.setCol "is_hit" (hitCell p threshold)
    let ones := df2.rows.countP
      (fun r => (colIdx df2.cols "is_hit").any
        (fun j => cellAt r j == some (Value.int 1)))
    ([Msg.createdIsHit threshold,
      Msg.hitDistribution ones (df2.nrows - ones)],
     .ok df2)

/-- `pd.read_csv` over an abstract filesystem: a missing path raises
`FileNotFoundError`. -/
def read_csv (fs : String → Option Table) (path : String) :
    Except PdError Table :=
  match fs path with
  | some t => .ok t
  | none => .error .fileNotFound

/-- `load_spotify_dataset(file_path)`: catches `FileNotFoundError`, prints a
diagnostic and returns `None`; otherwise returns the loaded table. -/
def load_spotify_dataset (fs : String → Option Table) (path : String) :
    List Msg × Option Table :=
  match read_csv fs path with
  | .ok df => ([Msg.loaded path df.nrows], some df)
  | .error _ => ([Msg.fileNotFound path], none)

structure Playlist where
  id : String
  name : String
  deriving DecidableEq

/-- The loop body of `search_playlist`: first non-null playlist item. -/
def firstValid : List (Option Playlist) → Option Playlist
  | [] => none
  | some p :: _ => some p
  | none :: rest => firstValid rest

/-- `search_playlist(sp, query, limit)`: the external `sp.search` result is
passed in (`none` models a falsy response).  Returns the id and name of
the first non-null item, or `(None, None)` with a diagnostic. -/
def search_playlist (results : Option (List (Option Playlist)))
    (query : String) : List Msg × (Option String × Option String) :=
  match results with
  | some items =>
    if items ≠ [] then
      match firstValid items with
      | some p => ([Msg.foundPlaylist p.id p.name], (some p.id, some p.name))
      | none => ([Msg.noPlaylist query], (none, none))
    else ([Msg.noPlaylist query], (none, none))
  | none => ([Msg.noPlaylist query], (none, none))

/-- `connect_to_spotify`: the external authentication outcome is passed in;
a failure is caught and `None` returned. -/
def connect_to_spotify {Client : Type} (auth : Except String Client) :
    List Msg × Option Client :=
  match auth with
  | .ok sp => ([Msg.connected], some sp)
  | .error _ => ([Msg.connectFailed], none)

/-- A store of dataframe objects; a Python variable holding a dataframe is
an index into the store.  Used to state mutation/aliasing claims. -/
def cleanDataProg (s : List Table) (i : Fin s.length) :
    List Msg × Except PdError (List Table × Nat) :=
  let res := clean_data (s.get i)
  (res.1, res.2.map (fun t => (s ++ [t], s.length)))

/-- `define_hit_songs` updates the dataframe object in place: the store slot
of the argument is overwritten and the same reference returned. -/
def defineHitSongsProg (s : List Table) (i : Fin s.length) (k : Int) :
    List Msg × Except PdError (List Table × Nat) :=
  let res := define_hit_songs (s.get i) k
  (res.1, res.2.map (fun t => (s.set i t, i)))

/-! ### Lemmas about column lookup and cell access -/

theorem colIdx_eq_none_iff (cs : List String) (c : String) :
    colIdx cs c = none ↔ c ∉ cs := by
  induction cs with
  | nil => simp [colIdx]
  | cons a cs ih =>
    simp only [colIdx, List.mem_cons]
    by_cases h : a = c
    · simp [h]
    · simp only [if_neg h, Option.map_eq_none', ih]
      constructor
      · intro hn hc
        rcases hc with hc | hc
        · exact h hc.symm
        · exact hn hc
      · intro hn
        exact fun hc => hn (Or.inr hc)

theorem colIdx_get? (cs : List String) (c : String) (n : Nat)
    (h : colIdx cs c = some n) : cs.get? n = some c := by
  induction cs generalizing n with
  | nil => simp [colIdx] at h
  | cons a cs ih =>
    simp only [colIdx] at h
    by_cases ha : a = c
    · rw [if_pos ha] at h
      cases h
      simp [ha]
    · rw [if_neg ha, Option.map_eq_some'] at h
      obtain ⟨m, hm, rfl⟩ := h
      simpa using ih m hm

theorem colIdx_lt_length (cs : List String) (c : String) (n : Nat)
    (h : colIdx cs c = some n) : n < cs.length := by
  by_contra hlt
  have := colIdx_get? cs c n h
  rw [List.get?_eq_none.mpr (Nat.le_of_not_lt hlt)] at this
  exact Option.noConfusion this

theorem colIdx_append_left (cs ds : List String) (c : String) (n : Nat)
    (h : colIdx cs c = some n) : colIdx (cs ++ ds) c = some n := by
  induction cs generalizing n with
  | nil => simp [colIdx] at h
  | cons a cs ih =>
    rw [List.cons_append]
    simp only [colIdx] at h ⊢
    by_cases ha : a = c
    · rwa [if_pos ha] at h ⊢
    · rw [if_neg ha] at h ⊢
      rw [Option.map_eq_some'] at h
      obtain ⟨m, hm, rfl⟩ := h
      rw [ih m hm]
      rfl

theorem colIdx_append_self (cs : List String) (c : String) (h : c ∉ cs) :
    colIdx (cs ++ [c]) c = some cs.length := by
  induction cs with
  | nil => simp [colIdx]
  | cons a cs ih =>
    have ha : a ≠ c := fun hh => h (hh ▸ List.mem_cons_self a cs)
    have h2 : c ∉ cs := fun hh => h (List.mem_cons_of_mem a hh)
    rw [List.cons_append]
    simp only [colIdx, if_neg ha, ih h2]
    rfl

theorem cellAt_eq_get? (r : List Cell) (j : Nat) :
    cellAt r j = (r.get? j).getD none := rfl

theorem cellAt_append_lt (r s : List Cell) (j : Nat) (h : j < r.length) :
    cellAt (r ++ s) j = cellAt r j := by
  simp only [cellAt_eq_get?]
  rw [List.get?_append h]

theorem cellAt_append_length (r : List Cell) (v : Cell) :
    cellAt (r ++ [v]) r.length = v := by
  simp only [cellAt_eq_get?]
  rw [List.get?_concat_length]
  rfl

theorem cellAt_set_ne (r : List Cell) (i j : Nat) (v : Cell) (h : i ≠ j) :
    cellAt (r.set i v) j = cellAt r j := by
  simp only [cellAt_eq_get?]
  rw [List.get?_set_ne (h := h)]

theorem cellAt_set_self (r : List Cell) (i : Nat) (v : Cell)
    (h : i < r.length) : cellAt (r.set i v) i = v := by
  simp only [cellAt_eq_get?]
  rw [List.get?_set_eq_of_lt (h := h)]
  rfl

theorem set_append_last (r : List Cell) (v w : Cell) :
    (r ++ [v]).set r.length w = r ++ [w] := by
  induction r with
  | nil => rfl
  | cons a r ih => simp [ih]

/-! ### Lemmas about duplicate detection and removal -/

theorem mem_of_mem_dedupFirst {j : Nat} {l : List (List Cell)}
    {seen : List Cell} {r : List Cell} (h : r ∈ dedupFirst j l seen) :
    r ∈ l := by
  induction l generalizing seen with
  | nil => simp [dedupFirst] at h
  | cons a l ih =>
    simp only [dedupFirst] at h
    by_cases ha : cellAt a j ∈ seen
    · rw [if_pos ha] at h
      exact List.mem_cons_of_mem _ (ih h)
    · rw [if_neg ha] at h
      rcases List.mem_cons.mp h with h1 | h1
      · exact h1 ▸ List.mem_cons_self _ _
      · exact List.mem_cons_of_mem _ (ih h1)

theorem dedupFirst_first_occurrence {j : Nat} {l : List (List Cell)}
    {seen : List Cell} {r : List Cell} (h : r ∈ dedupFirst j l seen) :
    cellAt r j ∉ seen ∧
      l.find? (fun x => cellAt x j == cellAt r j) = some r := by
  induction l generalizing seen with
  | nil => simp [dedupFirst] at h
  | cons a l ih =>
    simp only [dedupFirst] at h
    by_cases ha : cellAt a j ∈ seen
    · rw [if_pos ha] at h
      obtain ⟨hn, hf⟩ := ih h
      refine ⟨hn, ?_⟩
      rw [List.find?_cons_of_neg _ ?_, hf]
      simp only [beq_iff_eq]
      intro hEq
      exact hn (hEq ▸ ha)
    · rw [if_neg ha] at h
      rcases List.mem_cons.mp h with rfl | h1
      · refine ⟨ha, ?_⟩
        rw [List.find?_cons_of_pos]
        simp
      · obtain ⟨hn, hf⟩ := ih h1
        have hra : cellAt r j ≠ cellAt a j := by
          intro hEq
          exact hn (by rw [hEq]; exact List.mem_cons_self _ _)
        refine ⟨fun hs => hn (List.mem_cons_of_mem _ hs), ?_⟩
        rw [List.find?_cons_of_neg _ ?_, hf]
        simp only [beq_iff_eq]
        exact fun hEq => hra hEq.symm

theorem dedupFirst_keys_nodup (j : Nat) (l : List (List Cell))
    (seen : List Cell) :
    ((dedupFirst j l seen).map (fun r => cellAt r j)).Nodup := by
  induction l generalizing seen with
  | nil => simp [dedupFirst]
  | cons a l ih =>
    simp only [dedupFirst]
    by_cases ha : cellAt a j ∈ seen
    · rw [if_pos ha]
      exact ih seen
    · rw [if_neg ha, List.map_cons, List.nodup_cons]
      refine ⟨?_, ih _⟩
      intro hmem
      obtain ⟨r, hr, hkey⟩ := List.mem_map.mp hmem
      have := (dedupFirst_first_occurrence hr).1
      exact this (by rw [hkey]; exact List.mem_cons_self _ _)

theorem dedupFirst_eq_of_count_zero {j : Nat} {l : List (List Cell)}
    {seen : List Cell} (h : (dupFlags j l seen).count true = 0) :
    dedupFirst j l seen = l := by
  induction l generalizing seen with
  | nil => rfl
  | cons a l ih =>
    by_cases ha : cellAt a j ∈ seen
    · exfalso
      simp [dupFlags, ha, List.count_cons] at h
    · have h2 : (dupFlags j l (cellAt a j :: seen)).count true = 0 := by
        simpa [dupFlags, ha, List.count_cons] using h
      simp only [dedupFirst, if_neg ha, ih h2]

theorem count_dupFlags_mono {j : Nat} {l1 l2 : List (List Cell)}
    (hsub : l1.Sublist l2) :
    ∀ seen1 seen2 : List Cell, (∀ x ∈ seen1, x ∈ seen2) →
      (dupFlags j l1 seen1).count true ≤ (dupFlags j l2 seen2).count true := by
  induction hsub with
  | slnil =>
    intro _ _ _
    exact Nat.le_refl _
  | cons a hsub ih =>
    intro s1 s2 hss
    have step := ih s1 (cellAt a j :: s2)
      (fun x hx => List.mem_cons_of_mem _ (hss x hx))
    refine Nat.le_trans step ?_
    simp only [dupFlags, List.count_cons]
    exact Nat.le_add_right _ _
  | cons₂ a hsub ih =>
    intro s1 s2 hss
    have step := ih (cellAt a j :: s1) (cellAt a j :: s2)
      (fun x hx => by
        rcases List.mem_cons.mp hx with rfl | hx
        · exact List.mem_cons_self _ _
        · exact List.mem_cons_of_mem _ (hss x hx))
    by_cases h1 : cellAt a j ∈ s1
    · have h2 : cellAt a j ∈ s2 := hss _ h1
      simp only [dupFlags, List.count_cons, h1, h2, decide_True]
      omega
    · by_cases h2 : cellAt a j ∈ s2
      · simp only [dupFlags, List.count_cons, h1, h2, decide_True, decide_False]
        simp only [show ((false == true) = true) = False by simp,
          show ((true == true) = true) = True by simp, if_true, if_false]
        omega
      · simp only [dupFlags, List.count_cons, h1, h2, decide_False]
        omega

theorem countDup_mono {j : Nat} {l1 l2 : List (List Cell)}
    (hsub : l1.Sublist l2) : countDup j l1 ≤ countDup j l2 :=
  count_dupFlags_mono hsub [] [] (fun x hx => hx)

/-! ### Lemmas about column assignment -/

theorem setCol_rows_length (t : Table) (c : String) (f : List Cell → Cell) :
    (t.setCol c f).rows.length = t.rows.length := by
  cases hc : colIdx t.cols c <;> simp [Table.setCol, hc]

theorem setCol_cols_cases (t : Table) (c : String) (f : List Cell → Cell) :
    (t.setCol c f).cols = t.cols ∨ (t.setCol c f).cols = t.cols ++ [c] := by
  cases hc : colIdx t.cols c
  · exact Or.inr (by simp [Table.setCol, hc])
  · exact Or.inl (by simp [Table.setCol, hc])

theorem getCell_setCol_self (t : Table) (hwf : t.WF) (c : String)
    (f : List Cell → Cell) (i : Nat) (r : List Cell)
    (hrow : t.rows.get? i = some r) :
    (t.setCol c f).getCell i c = some (f r) := by
  have hrlen : r.length = t.cols.length := hwf r (List.get?_mem hrow)
  cases hc : colIdx t.cols c with
  | some j =>
    have hj : j < r.length := hrlen ▸ colIdx_lt_length _ _ _ hc
    simp only [Table.setCol, hc, Table.getCell, List.get?_map, hrow,
      Option.map_some', Option.some_bind]
    rw [cellAt_set_self r j (f r) hj]
  | none =>
    have hmem : c ∉ t.cols := (colIdx_eq_none_iff _ _).mp hc
    simp only [Table.setCol, hc, Table.getCell,
      colIdx_append_self _ _ hmem, List.get?_map, hrow,
      Option.map_some', Option.some_bind]
    rw [← hrlen, cellAt_append_length]

theorem getCell_setCol_other (t : Table) (hwf : t.WF) (c c' : String)
    (hne : c' ≠ c) (f : List Cell → Cell) (i : Nat) :
    (t.setCol c f).getCell i c' = t.getCell i c' := by
  cases hc : colIdx t.cols c with
  | some j =>
    simp only [Table.setCol, hc, Table.getCell]
    cases hc' : colIdx t.cols c' with
    | none => rfl
    | some q =>
      have hqj : q ≠ j := by
        intro hEq
        have h1 := colIdx_get? _ _ _ hc'
        have h2 := colIdx_get? _ _ _ hc
        rw [hEq, h2] at h1
        exact hne (Option.some.inj h1).symm
      cases hrow : t.rows.get? i with
      | none =>
        rw [List.get?_map, hrow]
        rfl
      | some r =>
        simp only [List.get?_map, hrow, Option.map_some', Option.some_bind]
        rw [cellAt_set_ne r j q (f r) (Ne.symm hqj)]
  | none =>
    have hmem : c ∉ t.cols := (colIdx_eq_none_iff _ _).mp hc
    simp only [Table.setCol, hc, Table.getCell]
    cases hc' : colIdx t.cols c' with
    | none =>
      have happ : colIdx (t.cols ++ [c]) c' = none := by
        rw [colIdx_eq_none_iff]
        intro hmem'
        rcases List.mem_append.mp hmem' with h | h
        · exact (colIdx_eq_none_iff _ _).mp hc' h
        · exact hne (List.mem_singleton.mp h)
      rw [happ]
      rfl
    | some q =>
      rw [colIdx_append_left _ _ _ _ hc']
      cases hrow : t.rows.get? i with
      | none =>
        rw [List.get?_map, hrow]
        rfl
      | some r =>
        have hrlen : r.length = t.cols.length := hwf r (List.get?_mem hrow)
        have hq : q < r.length := hrlen ▸ colIdx_lt_length _ _ _ hc'
        simp only [List.get?_map, hrow, Option.map_some', Option.some_bind]
        rw [cellAt_append_lt r [f r] q hq]

theorem colIdx_setCol_other (t : Table) (c c' : String)
    (f : List Cell → Cell) (q : Nat) (h : colIdx t.cols c' = some q) :
    colIdx (t.setCol c f).cols c' = some q := by
  cases hc : colIdx t.cols c with
  | some j => simpa [Table.setCol, hc] using h
  | none =>
    simp only [Table.setCol, hc]
    exact colIdx_append_left _ _ _ _ h

/-! ### Inversion and idempotence support for `define_hit_songs` -/

theorem define_hit_songs_ok_inv {T T' : Table} {k : Int}
    (hok : (define_hit_songs T k).2 = Except.ok T') :
    ∃ p, colIdx T.cols "popularity" = some p ∧
      T' = T.setCol "is_hit" (hitCell p k) := by
  cases hc : colIdx T.cols "popularity" with
  | none => simp [define_hit_songs, hc] at hok
  | some p =>
    refine ⟨p, rfl, ?_⟩
    simp only [define_hit_songs, hc] at hok
    exact (Except.ok.inj hok).symm

theorem hitCell_congr (p : Nat) (k : Int) (r r' : List Cell)
    (h : cellAt r' p = cellAt r p) : hitCell p k r' = hitCell p k r := by
  unfold hitCell
  rw [h]

theorem setCol_hitCell_fix (T : Table) (hwf : T.WF) (p : Nat) (k : Int)
    (hp : colIdx T.cols "popularity" = some p) :
    (T.setCol "is_hit" (hitCell p k)).setCol "is_hit" (hitCell p k)
      = T.setCol "is_hit" (hitCell p k) := by
  have hplt : p < T.cols.length := colIdx_lt_length _ _ _ hp
  have hpname : T.cols.get? p = some "popularity" := colIdx_get? _ _ _ hp
  cases hi : colIdx T.cols "is_hit" with
  | none =>
    have hmem : "is_hit" ∉ T.cols := (colIdx_eq_none_iff _ _).mp hi
    simp only [Table.setCol, hi, colIdx_append_self _ _ hmem]
    congr 1
    rw [List.map_map]
    apply List.map_congr_left
    intro r hr
    have hrlen : r.length = T.cols.length := hwf r hr
    have hcell : cellAt (r ++ [hitCell p k r]) p = cellAt r p :=
      cellAt_append_lt r _ p (hrlen ▸ hplt)
    show (r ++ [hitCell p k r]).set T.cols.length
      (hitCell p k (r ++ [hitCell p k r])) = r ++ [hitCell p k r]
    rw [hitCell_congr p k r _ hcell, ← hrlen, set_append_last]
  | some j =>
    have hjname : T.cols.get? j = some "is_hit" := colIdx_get? _ _ _ hi
    have hpj : p ≠ j := by
      intro hEq
      rw [hEq, hjname] at hpname
      exact absurd (Option.some.inj hpname) (by decide)
    simp only [Table.setCol, hi]
    congr 1
    rw [List.map_map]
    apply List.map_congr_left
    intro r hr
    have hcell : cellAt (r.set j (hitCell p k r)) p = cellAt r p :=
      cellAt_set_ne r j p _ (Ne.symm hpj)
    show (r.set j (hitCell p k r)).set j
      (hitCell p k (r.set j (hitCell p k r))) = r.set j (hitCell p k r)
    rw [hitCell_congr p k r _ hcell, List.set_set]

/-! ### Lemmas about the cleaning passes -/

theorem dropna_cols (t : Table) : t.dropna.cols = t.cols := rfl

theorem dropna_rows_sublist (t : Table) : t.dropna.rows.Sublist t.rows :=
  List.filter_sublist t.rows

theorem mem_dropna_all_isSome (t : Table) (r : List Cell)
    (h : r ∈ t.dropna.rows) : r.all (·.isSome) = true := by
  have h' : r ∈ t.rows.filter (fun r => r.all (·.isSome)) := h
  exact (List.mem_filter.mp h').2

theorem dropna_WF (t : Table) (hwf : t.WF) : t.dropna.WF := fun r hr =>
  hwf r (List.mem_of_mem_filter hr)

theorem dropCol_cols_not_mem (t : Table) (c : String) :
    c ∉ (t.dropCol c).cols := by
  intro hmem
  simp only [Table.dropCol, List.mem_map] at hmem
  obtain ⟨j, hj, hEq⟩ := hmem
  have h2 := (List.mem_filter.mp hj).2
  rw [hEq] at h2
  simp at h2

theorem dropCol_cols_subset (t : Table) (c : String) :
    ∀ x ∈ (t.dropCol c).cols, x ∈ t.cols := by
  intro x hx
  simp only [Table.dropCol, List.mem_map] at hx
  obtain ⟨j, hj, hEq⟩ := hx
  have hjlt : j < t.cols.length := List.mem_range.mp (List.mem_filter.mp hj).1
  have hget : t.cols.getD j "" = t.cols.get ⟨j, hjlt⟩ := by
    show (t.cols.get? j).getD "" = _
    rw [List.get?_eq_get hjlt]
    rfl
  rw [← hEq, hget]
  exact List.get_mem _ _ _

theorem dropCol_WF (t : Table) (c : String) : (t.dropCol c).WF := by
  intro r hr
  simp only [Table.dropCol, List.mem_map] at hr ⊢
  obtain ⟨r0, _, hEq⟩ := hr
  rw [← hEq]
  simp [List.length_map]

theorem dropCol_rows_allSome (t : Table) (hwf : t.WF) (c : String)
    (h : ∀ r ∈ t.rows, r.all (·.isSome) = true) :
    ∀ r ∈ (t.dropCol c).rows, r.all (·.isSome) = true := by
  intro r hr
  simp only [Table.dropCol, List.mem_map] at hr
  obtain ⟨r0, hr0, hEq⟩ := hr
  rw [← hEq, List.all_eq_true]
  intro x hx
  obtain ⟨j, hj, hxEq⟩ := List.mem_map.mp hx
  have hjlt : j < t.cols.length := List.mem_range.mp (List.mem_filter.mp hj).1
  have hjr : j < r0.length := (hwf r0 hr0) ▸ hjlt
  have hcell : cellAt r0 j = r0.get ⟨j, hjr⟩ := by
    show (r0.get? j).getD none = _
    rw [List.get?_eq_get hjr]
    rfl
  have hmem : x ∈ r0 := by
    rw [← hxEq, hcell]
    exact List.get_mem _ _ _
  exact (List.all_eq_true.mp (h r0 hr0)) x hmem

theorem postDropIndex_cols_subset (t : Table) :
    ∀ x ∈ t.postDropIndex.cols, x ∈ t.cols := by
  intro x hx
  unfold Table.postDropIndex at hx
  by_cases h : "index" ∈ t.cols
  · rw [if_pos h] at hx
    exact dropCol_cols_subset t "index" x hx
  · rwa [if_neg h] at hx

theorem postDropIndex_no_index (t : Table) :
    "index" ∉ t.postDropIndex.cols := by
  unfold Table.postDropIndex
  by_cases h : "index" ∈ t.cols
  · rw [if_pos h]
    exact dropCol_cols_not_mem t "index"
  · rwa [if_neg h]

theorem postDropIndex_WF (t : Table) (hwf : t.WF) : t.postDropIndex.WF := by
  unfold Table.postDropIndex
  by_cases h : "index" ∈ t.cols
  · rw [if_pos h]
    exact dropCol_WF t "index"
  · rwa [if_neg h]

theorem postDropIndex_rows_allSome (t : Table) (hwf : t.WF)
    (h : ∀ r ∈ t.rows, r.all (·.isSome) = true) :
    ∀ r ∈ t.postDropIndex.rows, r.all (·.isSome) = true := by
  unfold Table.postDropIndex
  by_cases hc : "index" ∈ t.cols
  · rw [if_pos hc]
    exact dropCol_rows_allSome t hwf "index" h
  · rwa [if_neg hc]

theorem postDropIndex_dropna_cols (t : Table) :
    ((t.dropna).postDropIndex).cols = (t.postDropIndex).cols := by
  unfold Table.postDropIndex
  by_cases h : "index" ∈ t.cols
  · rw [if_pos (show "index" ∈ t.dropna.cols from h), if_pos h]
    rfl
  · rw [if_neg (show "index" ∉ t.dropna.cols from h), if_neg h]
    rfl

theorem postDropIndex_dropna_rows_sublist (t : Table) :
    ((t.dropna).postDropIndex).rows.Sublist (t.postDropIndex).rows := by
  unfold Table.postDropIndex
  by_cases h : "index" ∈ t.cols
  · rw [if_pos (show "index" ∈ t.dropna.cols from h), if_pos h]
    exact (dropna_rows_sublist t).map _
  · rw [if_neg (show "index" ∉ t.dropna.cols from h), if_neg h]
    exact dropna_rows_sublist t

/-! ### Inversion for `clean_data` -/

theorem clean_data_ok_inv {T T' : Table}
    (hok : (clean_data T).2 = Except.ok T') :
    ∃ tj, colIdx ((T.dropna).postDropIndex).cols "track_id" = some tj ∧
      T'.cols = ((T.dropna).postDropIndex).cols ∧
      T'.rows = dedupFirst tj ((T.dropna).postDropIndex).rows [] := by
  cases hc : colIdx ((T.dropna).postDropIndex).cols "track_id" with
  | none => simp [clean_data, hc] at hok
  | some tj =>
    refine ⟨tj, rfl, ?_⟩
    simp only [clean_data, hc] at hok
    by_cases hn : 0 < countDup tj ((T.dropna).postDropIndex).rows
    · rw [if_pos hn] at hok
      rw [← Except.ok.inj hok]
      exact ⟨rfl, rfl⟩
    · rw [if_neg hn] at hok
      rw [← Except.ok.inj hok]
      refine ⟨rfl, ?_⟩
      rw [dedupFirst_eq_of_count_zero (Nat.eq_zero_of_not_pos hn)]

theorem clean_data_keyError (T : Table) (h : "track_id" ∉ T.cols) :
    (clean_data T).2 = Except.error (PdError.keyError "track_id") := by
  have hnone : colIdx ((T.dropna).postDropIndex).cols "track_id" = none := by
    rw [colIdx_eq_none_iff]
    intro hmem
    exact h (postDropIndex_cols_subset (T.dropna) _ hmem)
  simp [clean_data, hnone]

theorem define_hit_songs_keyError (T : Table) (k : Int)
    (h : "popularity" ∉ T.cols) :
    (define_hit_songs T k).2 = Except.error (PdError.keyError "popularity") := by
  simp [define_hit_songs, (colIdx_eq_none_iff _ _).mpr h]

theorem firstValid_eq_head_filterMap (items : List (Option Playlist)) :
    firstValid items = (items.filterMap id).head? := by
  induction items with
  | nil => rfl
  | cons a rest ih =>
    cases a with
    | none => simpa [firstValid] using ih
    | some p => rfl

theorem search_playlist_none_of_firstValid_none
    (items : List (Option Playlist)) (q : String)
    (h : firstValid items = none) :
    (search_playlist (some items) q).2 = (none, none) := by
  cases items with
  | nil => rfl
  | cons a rest =>
    simp only [search_playlist, if_pos (List.cons_ne_nil a rest), h]

/-! ### Claim theorems -/

/-- C4: for every path that does not resolve to an existing file,
`load_spotify_dataset` returns the absent sentinel `none` together with the
printed diagnostic; the `FileNotFoundError` is caught inside the function
(its return type is a plain `Option`, not `Except`), so no exception
reaches the caller. -/
theorem load_spotify_dataset_not_found (fs : String → Option Table)
    (path : String) (h : fs path = none) :
    load_spotify_dataset fs path = ([Msg.fileNotFound path], none) := by
  simp [load_spotify_dataset, read_csv, h]

/-- Witness for C4 at the empty filesystem and path "missing.csv". -/
theorem load_spotify_dataset_not_found_witness :
    (fun _ : String => (none : Option Table)) "missing.csv" = none ∧
    load_spotify_dataset (fun _ => none) "missing.csv"
      = ([Msg.fileNotFound "missing.csv"], none) :=
  ⟨rfl, load_spotify_dataset_not_found (fun _ => none) "missing.csv" rfl⟩

/-- C5: on every input table without a `track_id` column, `clean_data`
fails with the missing-column error (the `KeyError` raised by the
unconditional duplicate lookup): the deduplication pass errors out rather
than being skipped, and no cleaned table is returned. -/
theorem clean_data_missing_track_id (T : Table)
    (h : "track_id" ∉ T.cols) :
    (clean_data T).2 = Except.error (PdError.keyError "track_id") :=
  clean_data_keyError T h

/-- Witness for C5 on a one-row table with no `track_id` column. -/
theorem clean_data_missing_track_id_witness :
    "track_id" ∉ (Table.mk ["popularity"] [[some (Value.int 5)]]).cols ∧
    (clean_data (Table.mk ["popularity"] [[some (Value.int 5)]])).2
      = Except.error (PdError.keyError "track_id") :=
  ⟨by decide, clean_data_missing_track_id _ (by decide)⟩

/-- C9: `search_playlist` skips null entries and returns the (id, name)
pair of the first non-null playlist in order; when the result is absent,
empty, or all-null it returns the sentinel `(none, none)`; in particular
on items `[null, {id: "x", name: "Y"}]` it returns `("x", "Y")`. -/
theorem search_playlist_skips_nulls (items : List (Option Playlist))
    (q : String) :
    ((search_playlist (some items) q).2 =
      match (items.filterMap id).head? with
      | some p => (some p.id, some p.name)
      | none => (none, none)) ∧
    (search_playlist none q).2 = (none, none) ∧
    (search_playlist (some [none, some (Playlist.mk "x" "Y")]) q).2
      = (some "x", some "Y") := by
  refine ⟨?_, rfl, rfl⟩
  rw [← firstValid_eq_head_filterMap]
  cases items with
  | nil => rfl
  | cons a rest =>
    simp only [search_playlist, if_pos (List.cons_ne_nil a rest)]
    cases firstValid (a :: rest) <;> rfl

/-- C6 counterexample: a MissingColumn failure is NOT handled at the point
of occurrence: `clean_data` on a table without `track_id`, and
`define_hit_songs` on a table without `popularity`, let the `KeyError`
escape to the caller (modelled as `Except.error`) with no sentinel
returned, refuting the universal no-propagation policy. -/
theorem error_policy_counterexample :
    (clean_data (Table.mk ["name", "popularity"]
        [[some (Value.str "s"), some (Value.int 3)]])).2
      = Except.error (PdError.keyError "track_id") ∧
    (define_hit_songs (Table.mk ["name"] [[some (Value.str "s")]]) 87).2
      = Except.error (PdError.keyError "popularity") :=
  ⟨by decide, by decide⟩

/-- C6 amended: `connect_to_spotify`, `load_spotify_dataset` and
`search_playlist` do catch their failures (AuthFailure, NotFound,
EmptyResult) and return a "nothing found" sentinel with a diagnostic; but
the MissingColumn failures of `clean_data` and `define_hit_songs` are not
caught: they propagate to the caller as exceptions. -/
theorem error_policy_amended :
    (∀ fs path, fs path = none →
      load_spotify_dataset fs path = ([Msg.fileNotFound path], none)) ∧
    (∀ items q, firstValid items = none →
      (search_playlist (some items) q).2 = (none, none)) ∧
    (∀ q, (search_playlist none q).2 = (none, none)) ∧
    (∀ (C : Type) (e : String),
      connect_to_spotify (Except.error e : Except String C)
        = ([Msg.connectFailed], none)) ∧
    (∀ T, "track_id" ∉ T.cols →
      (clean_data T).2 = Except.error (PdError.keyError "track_id")) ∧
    (∀ T k, "popularity" ∉ T.cols →
      (define_hit_songs T k).2
        = Except.error (PdError.keyError "popularity")) := by
  refine ⟨?_, ?_, ?_, ?_, ?_, ?_⟩
  · intro fs path h
    simp [load_spotify_dataset, read_csv, h]
  · exact fun items q h => search_playlist_none_of_firstValid_none items q h
  · intro q
    rfl
  · intro C e
    rfl
  · exact fun T h => clean_data_keyError T h
  · exact fun T k h => define_hit_songs_keyError T k h

/-- Witness for the amended C6, each clause at a concrete input. -/
theorem error_policy_amended_witness :
    load_spotify_dataset (fun _ => none) "data.csv"
      = ([Msg.fileNotFound "data.csv"], none) ∧
    (search_playlist (some [none, none]) "rock").2 = (none, none) ∧
    (search_playlist none "rock").2 = (none, none) ∧
    connect_to_spotify (Except.error "bad credentials" : Except String Unit)
      = ([Msg.connectFailed], none) ∧
    (clean_data (Table.mk ["name"] [])).2
      = Except.error (PdError.keyError "track_id") ∧
    (define_hit_songs (Table.mk ["name"] []) 87).2
      = Except.error (PdError.keyError "popularity") :=
  ⟨error_policy_amended.1 (fun _ => none) "data.csv" rfl,
   error_policy_amended.2.1 [none, none] "rock" rfl,
   error_policy_amended.2.2.1 "rock",
   error_policy_amended.2.2.2.1 Unit "bad credentials",
   error_policy_amended.2.2.2.2.1 (Table.mk ["name"] []) (by decide),
   error_policy_amended.2.2.2.2.2 (Table.mk ["name"] []) 87 (by decide)⟩

/-- C1: every row of `define_hit_songs(T, k)` carries `is_hit = 1` exactly
when its `popularity` value strictly exceeds `k` (so a row whose
popularity equals `k` gets `is_hit = 0`), and the default threshold is
87. -/
theorem define_hit_songs_strict_threshold (T T' : Table) (k : Int)
    (hwf : T.WF) (i : Nat) (pv : Int)
    (hok : (define_hit_songs T k).2 = Except.ok T')
    (hpop : T.getCell i "popularity" = some (some (Value.int pv))) :
    (T'.getCell i "is_hit" = some (some (Value.int 1)) ↔ pv > k) ∧
    (pv = k → T'.getCell i "is_hit" = some (some (Value.int 0))) ∧
    (∀ df : Table, define_hit_songs df = define_hit_songs df 87) := by
  obtain ⟨p, hp, rfl⟩ := define_hit_songs_ok_inv hok
  simp only [Table.getCell, hp, Option.some_bind] at hpop
  cases hrow : T.rows.get? i with
  | none =>
    rw [hrow] at hpop
    simp at hpop
  | some r =>
    rw [hrow] at hpop
    simp only [Option.map_some'] at hpop
    have hcell : cellAt r p = some (Value.int pv) := Option.some.inj hpop
    have hself := getCell_setCol_self T hwf "is_hit" (hitCell p k) i r hrow
    rw [hself]
    refine ⟨?_, ?_, fun df => rfl⟩
    · unfold hitCell
      rw [hcell]
      unfold cellGtInt
      by_cases hlt : k < pv
      · simp [hlt, gt_iff_lt]
      · simp [hlt, gt_iff_lt]
    · intro hEq
      unfold hitCell
      rw [hcell]
      unfold cellGtInt
      simp [hEq]

/-- Witness for C1: one row with popularity 90 against threshold 87. -/
theorem define_hit_songs_strict_threshold_witness :
    (Table.mk ["popularity"] [[some (Value.int 90)]]).WF ∧
    (define_hit_songs (Table.mk ["popularity"] [[some (Value.int 90)]]) 87).2
      = Except.ok (Table.mk ["popularity", "is_hit"]
          [[some (Value.int 90), some (Value.int 1)]]) ∧
    (Table.mk ["popularity"] [[some (Value.int 90)]]).getCell 0 "popularity"
      = some (some (Value.int 90)) ∧
    (((Table.mk ["popularity", "is_hit"]
          [[some (Value.int 90), some (Value.int 1)]]).getCell 0 "is_hit"
        = some (some (Value.int 1)) ↔ (90 : Int) > 87) ∧
      ((90 : Int) = 87 →
        (Table.mk ["popularity", "is_hit"]
            [[some (Value.int 90), some (Value.int 1)]]).getCell 0 "is_hit"
          = some (some (Value.int 0))) ∧
      (∀ df : Table, define_hit_songs df = define_hit_songs df 87)) :=
  ⟨by decide, by decide, by decide,
   define_hit_songs_strict_threshold
     (Table.mk ["popularity"] [[some (Value.int 90)]])
     (Table.mk ["popularity", "is_hit"]
       [[some (Value.int 90), some (Value.int 1)]]) 87 (by decide) 0 90
     (by decide) (by decide)⟩

/-- C8: `define_hit_songs` keeps exactly the rows of its input in the same
order (no rows added or removed), leaves every column other than `is_hit`
unchanged, and only adds (or replaces) the `is_hit` column. -/
theorem define_hit_songs_frame (T T' : Table) (k : Int) (hwf : T.WF)
    (hok : (define_hit_songs T k).2 = Except.ok T') :
    T'.nrows = T.nrows ∧
    (∀ c, c ≠ "is_hit" → ∀ i, T'.getCell i c = T.getCell i c) ∧
    (T'.cols = T.cols ∨ T'.cols = T.cols ++ ["is_hit"]) := by
  obtain ⟨p, hp, rfl⟩ := define_hit_songs_ok_inv hok
  exact ⟨setCol_rows_length T "is_hit" _,
         fun c hc i => getCell_setCol_other T hwf "is_hit" c hc _ i,
         setCol_cols_cases T "is_hit" _⟩

/-- Witness for C8 on a two-row table. -/
theorem define_hit_songs_frame_witness :
    (Table.mk ["track_id", "popularity"]
        [[some (Value.str "a"), some (Value.int 90)],
         [some (Value.str "b"), some (Value.int 10)]]).WF ∧
    (define_hit_songs (Table.mk ["track_id", "popularity"]
        [[some (Value.str "a"), some (Value.int 90)],
         [some (Value.str "b"), some (Value.int 10)]]) 87).2
      = Except.ok (Table.mk ["track_id", "popularity", "is_hit"]
          [[some (Value.str "a"), some (Value.int 90), some (Value.int 1)],
           [some (Value.str "b"), some (Value.int 10), some (Value.int 0)]]) ∧
    ((Table.mk ["track_id", "popularity", "is_hit"]
        [[some (Value.str "a"), some (Value.int 90), some (Value.int 1)],
         [some (Value.str "b"), some (Value.int 10), some (Value.int 0)]]).nrows
      = (Table.mk ["track_id", "popularity"]
          [[some (Value.str "a"), some (Value.int 90)],
           [some (Value.str "b"), some (Value.int 10)]]).nrows ∧
     (∀ c, c ≠ "is_hit" → ∀ i,
        (Table.mk ["track_id", "popularity", "is_hit"]
            [[some (Value.str "a"), some (Value.int 90), some (Value.int 1)],
             [some (Value.str "b"), some (Value.int 10),
              some (Value.int 0)]]).getCell i c
          = (Table.mk ["track_id", "popularity"]
              [[some (Value.str "a"), some (Value.int 90)],
               [some (Value.str "b"), some (Value.int 10)]]).getCell i c) ∧
     ((Table.mk ["track_id", "popularity", "is_hit"]
          [[some (Value.str "a"), some (Value.int 90), some (Value.int 1)],
           [some (Value.str "b"), some (Value.int 10),
            some (Value.int 0)]]).cols
        = (Table.mk ["track_id", "popularity"]
            [[some (Value.str "a"), some (Value.int 90)],
             [some (Value.str "b"), some (Value.int 10)]]).cols ∨
      (Table.mk ["track_id", "popularity", "is_hit"]
          [[some (Value.str "a"), some (Value.int 90), some (Value.int 1)],
           [some (Value.str "b"), some (Value.int 10),
            some (Value.int 0)]]).cols
        = (Table.mk ["track_id", "popularity"]
            [[some (Value.str "a"), some (Value.int 90)],
             [some (Value.str "b"), some (Value.int 10)]]).cols
          ++ ["is_hit"])) :=
  ⟨by decide, by decide,
   define_hit_songs_frame
     (Table.mk ["track_id", "popularity"]
       [[some (Value.str "a"), some (Value.int 90)],
        [some (Value.str "b"), some (Value.int 10)]])
     (Table.mk ["track_id", "popularity", "is_hit"]
       [[some (Value.str "a"), some (Value.int 90), some (Value.int 1)],
        [some (Value.str "b"), some (Value.int 10), some (Value.int 0)]])
     87 (by decide) (by decide)⟩

/-- C7: `define_hit_songs` is idempotent: applying it again with the same
threshold to its own output returns the very same table (and the same
report), because the existing `is_hit` column is overwritten with
identical values, not accumulated or duplicated. -/
theorem define_hit_songs_idempotent (T T' : Table) (k : Int) (hwf : T.WF)
    (hok : (define_hit_songs T k).2 = Except.ok T') :
    define_hit_songs T' k = define_hit_songs T k := by
  obtain ⟨p, hp, hT'⟩ := define_hit_songs_ok_inv hok
  have hp' : colIdx T'.cols "popularity" = some p := by
    rw [hT']
    exact colIdx_setCol_other T "is_hit" "popularity" _ p hp
  have hfix : T'.setCol "is_hit" (hitCell p k) = T' := by
    rw [hT' ]
    exact setCol_hitCell_fix T hwf p k hp
  simp only [define_hit_songs, hp, hp', hfix]
  rw [hT']

/-- Witness for C7 on a table that already gains an `is_hit` column. -/
theorem define_hit_songs_idempotent_witness :
    (Table.mk ["popularity"] [[some (Value.int 90)], [some (Value.int 50)]]).WF ∧
    (define_hit_songs (Table.mk ["popularity"]
        [[some (Value.int 90)], [some (Value.int 50)]]) 87).2
      = Except.ok (Table.mk ["popularity", "is_hit"]
          [[some (Value.int 90), some (Value.int 1)],
           [some (Value.int 50), some (Value.int 0)]]) ∧
    define_hit_songs (Table.mk ["popularity", "is_hit"]
        [[some (Value.int 90), some (Value.int 1)],
         [some (Value.int 50), some (Value.int 0)]]) 87
      = define_hit_songs (Table.mk ["popularity"]
          [[some (Value.int 90)], [some (Value.int 50)]]) 87 :=
  ⟨by decide, by decide,
   define_hit_songs_idempotent
     (Table.mk ["popularity"] [[some (Value.int 90)], [some (Value.int 50)]])
     (Table.mk ["popularity", "is_hit"]
       [[some (Value.int 90), some (Value.int 1)],
        [some (Value.int 50), some (Value.int 0)]])
     87 (by decide) (by decide)⟩

theorem clean_data_msg_inv {T : Table} {n : Nat}
    (hmsg : Msg.foundDuplicates n ∈ (clean_data T).1) :
    ∃ tj, colIdx ((T.dropna).postDropIndex).cols "track_id" = some tj ∧
      n = countDup tj ((T.dropna).postDropIndex).rows ∧
      0 < countDup tj ((T.dropna).postDropIndex).rows := by
  cases hc : colIdx ((T.dropna).postDropIndex).cols "track_id" with
  | none =>
    exfalso
    by_cases hidx : "index" ∈ T.dropna.cols <;>
      simp [clean_data, hc, hidx] at hmsg
  | some tj =>
    refine ⟨tj, rfl, ?_⟩
    by_cases hn : 0 < countDup tj ((T.dropna).postDropIndex).rows
    · refine ⟨?_, hn⟩
      by_cases hidx : "index" ∈ T.dropna.cols <;>
        simp [clean_data, hc, hidx, hn] at hmsg <;> exact hmsg
    · exfalso
      by_cases hidx : "index" ∈ T.dropna.cols <;>
        simp [clean_data, hc, hidx, hn] at hmsg

/-- C3: the cleaning passes run in the fixed order dropna, index-drop,
dedup: whenever a duplicate count is reported, it is exactly the duplicate
count of the post-missing-data, post-index-drop table, is positive, is at
most the duplicate count the table would have without the completeness
pass (so rows already removed for missing data are excluded from it), and
the returned table is the first-occurrence dedup of that same
intermediate table. -/
theorem clean_data_order_of_passes (T : Table) (n : Nat)
    (hmsg : Msg.foundDuplicates n ∈ (clean_data T).1) :
    ∃ tj, colIdx ((T.dropna).postDropIndex).cols "track_id" = some tj ∧
      n = countDup tj ((T.dropna).postDropIndex).rows ∧
      countDup tj ((T.dropna).postDropIndex).rows
        ≤ countDup tj (T.postDropIndex).rows ∧
      (clean_data T).2 = Except.ok
        (Table.mk ((T.dropna).postDropIndex).cols
          (dedupFirst tj ((T.dropna).postDropIndex).rows [])) := by
  obtain ⟨tj, htj, hn, hpos⟩ := clean_data_msg_inv hmsg
  refine ⟨tj, htj, hn,
    countDup_mono (postDropIndex_dropna_rows_sublist T), ?_⟩
  simp only [clean_data, htj, if_pos hpos]

/-- Witness for C3: the first row (a duplicate-keyed row with a missing
value) is removed by the completeness pass, so the reported count is 1
even though the raw table has 2 duplicated `track_id` rows. -/
theorem clean_data_order_of_passes_witness :
    Msg.foundDuplicates 1 ∈ (clean_data (Table.mk
      ["track_id", "popularity", "index"]
      [[some (Value.str "a"), none, some (Value.int 0)],
       [some (Value.str "a"), some (Value.int 1), some (Value.int 1)],
       [some (Value.str "a"), some (Value.int 2), some (Value.int 2)],
       [some (Value.str "b"), some (Value.int 3), some (Value.int 3)]])).1 ∧
    ∃ tj, colIdx (((Table.mk
        ["track_id", "popularity", "index"]
        [[some (Value.str "a"), none, some (Value.int 0)],
         [some (Value.str "a"), some (Value.int 1), some (Value.int 1)],
         [some (Value.str "a"), some (Value.int 2), some (Value.int 2)],
         [some (Value.str "b"), some (Value.int 3),
          some (Value.int 3)]]).dropna).postDropIndex).cols "track_id"
        = some tj ∧
      1 = countDup tj (((Table.mk
        ["track_id", "popularity", "index"]
        [[some (Value.str "a"), none, some (Value.int 0)],
         [some (Value.str "a"), some (Value.int 1), some (Value.int 1)],
         [some (Value.str "a"), some (Value.int 2), some (Value.int 2)],
         [some (Value.str "b"), some (Value.int 3),
          some (Value.int 3)]]).dropna).postDropIndex).rows ∧
      countDup tj (((Table.mk
        ["track_id", "popularity", "index"]
        [[some (Value.str "a"), none, some (Value.int 0)],
         [some (Value.str "a"), some (Value.int 1), some (Value.int 1)],
         [some (Value.str "a"), some (Value.int 2), some (Value.int 2)],
         [some (Value.str "b"), some (Value.int 3),
          some (Value.int 3)]]).dropna).postDropIndex).rows
        ≤ countDup tj ((Table.mk
        ["track_id", "popularity", "index"]
        [[some (Value.str "a"), none, some (Value.int 0)],
         [some (Value.str "a"), some (Value.int 1), some (Value.int 1)],
         [some (Value.str "a"), some (Value.int 2), some (Value.int 2)],
         [some (Value.str "b"), some (Value.int 3),
          some (Value.int 3)]]).postDropIndex).rows ∧
      (clean_data (Table.mk
        ["track_id", "popularity", "index"]
        [[some (Value.str "a"), none, some (Value.int 0)],
         [some (Value.str "a"), some (Value.int 1), some (Value.int 1)],
         [some (Value.str "a"), some (Value.int 2), some (Value.int 2)],
         [some (Value.str "b"), some (Value.int 3),
          some (Value.int 3)]])).2 = Except.ok
        (Table.mk (((Table.mk
          ["track_id", "popularity", "index"]
          [[some (Value.str "a"), none, some (Value.int 0)],
           [some (Value.str "a"), some (Value.int 1), some (Value.int 1)],
           [some (Value.str "a"), some (Value.int 2), some (Value.int 2)],
           [some (Value.str "b"), some (Value.int 3),
            some (Value.int 3)]]).dropna).postDropIndex).cols
          (dedupFirst tj (((Table.mk
          ["track_id", "popularity", "index"]
          [[some (Value.str "a"), none, some (Value.int 0)],
           [some (Value.str "a"), some (Value.int 1), some (Value.int 1)],
           [some (Value.str "a"), some (Value.int 2), some (Value.int 2)],
           [some (Value.str "b"), some (Value.int 3),
            some (Value.int 3)]]).dropna).postDropIndex).rows [])) :=
  ⟨by decide,
   clean_data_order_of_passes (Table.mk
     ["track_id", "popularity", "index"]
     [[some (Value.str "a"), none, some (Value.int 0)],
      [some (Value.str "a"), some (Value.int 1), some (Value.int 1)],
      [some (Value.str "a"), some (Value.int 2), some (Value.int 2)],
      [some (Value.str "b"), some (Value.int 3), some (Value.int 3)]])
     1 (by decide)⟩

/-- C2 counterexample: the first-occurring row with `track_id` "a" carries
a missing value, is removed by the completeness pass, and does not survive
cleaning — so the surviving row for "a" is not the first-occurring row of
the original table, refuting the claim as stated. -/
theorem clean_data_first_occurrence_counterexample :
    (clean_data (Table.mk ["track_id", "popularity"]
        [[some (Value.str "a"), none],
         [some (Value.str "a"), some (Value.int 5)]])).2
      = Except.ok (Table.mk ["track_id", "popularity"]
          [[some (Value.str "a"), some (Value.int 5)]]) ∧
    colIdx ["track_id", "popularity"] "track_id" = some 0 ∧
    (Table.mk ["track_id", "popularity"]
        [[some (Value.str "a"), none],
         [some (Value.str "a"), some (Value.int 5)]]).rows.find?
      (fun r => cellAt r 0 == some (Value.str "a"))
      = some [some (Value.str "a"), none] ∧
    [some (Value.str "a"), none] ∉
      (Table.mk ["track_id", "popularity"]
        [[some (Value.str "a"), some (Value.int 5)]]).rows :=
  ⟨by decide, by decide, by decide, by decide⟩

/-- C2 amended: on every well-formed input table, a successful clean has
no missing value in any cell, no column named `index`, pairwise-distinct
`track_id` cells, and each surviving row is the first-occurring row with
its `track_id` among the rows that survive the completeness and
index-drop passes (not necessarily the first occurrence in the raw
table, whose first occurrence may have been dropped for missing
values). -/
theorem clean_data_invariants (T T' : Table) (hwf : T.WF)
    (hok : (clean_data T).2 = Except.ok T') :
    (∀ r ∈ T'.rows, r.all (·.isSome) = true) ∧
    "index" ∉ T'.cols ∧
    (∀ tj, colIdx T'.cols "track_id" = some tj →
      ((T'.rows.map (fun r => cellAt r tj)).Nodup ∧
       ∀ r ∈ T'.rows,
         ((T.dropna).postDropIndex).rows.find?
           (fun x => cellAt x tj == cellAt r tj) = some r)) := by
  obtain ⟨tj0, htj0, hcols, hrows⟩ := clean_data_ok_inv hok
  refine ⟨?_, ?_, ?_⟩
  · intro r hr
    rw [hrows] at hr
    exact postDropIndex_rows_allSome (T.dropna) (dropna_WF T hwf)
      (mem_dropna_all_isSome T) r (mem_of_mem_dedupFirst hr)
  · rw [hcols]
    exact postDropIndex_no_index (T.dropna)
  · intro tj htj
    rw [hcols, htj0] at htj
    obtain rfl : tj0 = tj := Option.some.inj htj
    constructor
    · rw [hrows]
      exact dedupFirst_keys_nodup tj0 _ []
    · intro r hr
      rw [hrows] at hr
      exact (dedupFirst_first_occurrence hr).2

/-- Witness for the amended C2 on a table with a missing value, an `index`
column and duplicated `track_id`s. -/
theorem clean_data_invariants_witness :
    (Table.mk ["track_id", "popularity", "index"]
      [[some (Value.str "a"), none, some (Value.int 0)],
       [some (Value.str "a"), some (Value.int 1), some (Value.int 1)],
       [some (Value.str "a"), some (Value.int 2), some (Value.int 2)],
       [some (Value.str "b"), some (Value.int 3), some (Value.int 3)]]).WF ∧
    (clean_data (Table.mk ["track_id", "popularity", "index"]
      [[some (Value.str "a"), none, some (Value.int 0)],
       [some (Value.str "a"), some (Value.int 1), some (Value.int 1)],
       [some (Value.str "a"), some (Value.int 2), some (Value.int 2)],
       [some (Value.str "b"), some (Value.int 3),
        some (Value.int 3)]])).2
      = Except.ok (Table.mk ["track_id", "popularity"]
          [[some (Value.str "a"), some (Value.int 1)],
           [some (Value.str "b"), some (Value.int 3)]]) ∧
    ((∀ r ∈ (Table.mk ["track_id", "popularity"]
          [[some (Value.str "a"), some (Value.int 1)],
           [some (Value.str "b"), some (Value.int 3)]]).rows,
        r.all (·.isSome) = true) ∧
     "index" ∉ (Table.mk ["track_id", "popularity"]
          [[some (Value.str "a"), some (Value.int 1)],
           [some (Value.str "b"), some (Value.int 3)]]).cols ∧
     (∀ tj, colIdx (Table.mk ["track_id", "popularity"]
          [[some (Value.str "a"), some (Value.int 1)],
           [some (Value.str "b"), some (Value.int 3)]]).cols "track_id"
          = some tj →
       (((Table.mk ["track_id", "popularity"]
          [[some (Value.str "a"), some (Value.int 1)],
           [some (Value.str "b"), some (Value.int 3)]]).rows.map
            (fun r => cellAt r tj)).Nodup ∧
        ∀ r ∈ (Table.mk ["track_id", "popularity"]
          [[some (Value.str "a"), some (Value.int 1)],
           [some (Value.str "b"), some (Value.int 3)]]).rows,
          (((Table.mk ["track_id", "popularity", "index"]
            [[some (Value.str "a"), none, some (Value.int 0)],
             [some (Value.str "a"), some (Value.int 1), some (Value.int 1)],
             [some (Value.str "a"), some (Value.int 2), some (Value.int 2)],
             [some (Value.str "b"), some (Value.int 3),
              some (Value.int 3)]]).dropna).postDropIndex).rows.find?
            (fun x => cellAt x tj == cellAt r tj) = some r))) :=
  ⟨by decide, by decide,
   clean_data_invariants
     (Table.mk ["track_id", "popularity", "index"]
       [[some (Value.str "a"), none, some (Value.int 0)],
        [some (Value.str "a"), some (Value.int 1), some (Value.int 1)],
        [some (Value.str "a"), some (Value.int 2), some (Value.int 2)],
        [some (Value.str "b"), some (Value.int 3), some (Value.int 3)]])
     (Table.mk ["track_id", "popularity"]
       [[some (Value.str "a"), some (Value.int 1)],
        [some (Value.str "b"), some (Value.int 3)]])
     (by decide) (by decide)⟩

/-- C10: `clean_data` does not mutate its input: running it over a store
of dataframe objects leaves every pre-existing slot (in particular the
argument's) unchanged and returns a fresh reference; by contrast
`define_hit_songs` returns its argument's own reference, overwriting that
slot in place. -/
theorem clean_data_does_not_mutate (s : List Table) (i : Fin s.length)
    (log : List Msg) (s' : List Table) (j : Nat)
    (hok : cleanDataProg s i = (log, Except.ok (s', j))) :
    (∀ m, m < s.length → s'.get? m = s.get? m) ∧
    j = s.length ∧
    (∀ k log2 s2 j2,
      defineHitSongsProg s i k = (log2, Except.ok (s2, j2)) →
      j2 = i.val ∧ s2.length = s.length) := by
  have h2 := congrArg Prod.snd hok
  simp only [cleanDataProg] at h2
  cases hc : (clean_data (s.get i)).2 with
  | error e =>
    rw [hc] at h2
    simp [Except.map] at h2
  | ok t =>
    rw [hc] at h2
    simp only [Except.map] at h2
    have hinj := Except.ok.inj h2
    have hs' : s ++ [t] = s' := congrArg Prod.fst hinj
    have hj : s.length = j := congrArg Prod.snd hinj
    refine ⟨?_, hj.symm, ?_⟩
    · intro m hm
      rw [← hs']
      exact List.get?_append hm
    · intro k log2 s2 j2 hok2
      have h3 := congrArg Prod.snd hok2
      simp only [defineHitSongsProg] at h3
      cases hd : (define_hit_songs (s.get i) k).2 with
      | error e =>
        rw [hd] at h3
        simp [Except.map] at h3
      | ok t2 =>
        rw [hd] at h3
        simp only [Except.map] at h3
        have hinj2 := Except.ok.inj h3
        have hs2 : s.set i t2 = s2 := congrArg Prod.fst hinj2
        have hj2 : i.val = j2 := congrArg Prod.snd hinj2
        refine ⟨hj2.symm, ?_⟩
        rw [← hs2]
        exact List.length_set s i.val t2

/-- Witness for C10 on a one-slot store. -/
theorem clean_data_does_not_mutate_witness :
    cleanDataProg [Table.mk ["track_id"] [[some (Value.str "a")]]]
        ⟨0, by decide⟩
      = ([Msg.originalShape 1 1, Msg.shapeAfterNA 1 1, Msg.finalShape 1 1],
         Except.ok ([Table.mk ["track_id"] [[some (Value.str "a")]],
                     Table.mk ["track_id"] [[some (Value.str "a")]]], 1)) ∧
    ((∀ m, m < 1 →
        [Table.mk ["track_id"] [[some (Value.str "a")]],
         Table.mk ["track_id"] [[some (Value.str "a")]]].get? m
          = [Table.mk ["track_id"] [[some (Value.str "a")]]].get? m) ∧
     1 = 1 ∧
     (∀ k log2 s2 j2,
        defineHitSongsProg [Table.mk ["track_id"] [[some (Value.str "a")]]]
            ⟨0, by decide⟩ k = (log2, Except.ok (s2, j2)) →
        j2 = 0 ∧ s2.length = 1)) :=
  ⟨by decide, clean_data_does_not_mutate
    [Table.mk ["track_id"] [[some (Value.str "a")]]] ⟨0, by decide⟩
    [Msg.originalShape 1 1, Msg.shapeAfterNA 1 1, Msg.finalShape 1 1]
    [Table.mk ["track_id"] [[some (Value.str "a")]],
     Table.mk ["track_id"] [[some (Value.str "a")]]] 1 (by decide)⟩

/-- Witness for C9: the spec scenario `[null, {id: "x", name: "Y"}]`. -/
theorem search_playlist_skips_nulls_witness :
    ((search_playlist (some [none, some (Playlist.mk "x" "Y")]) "chill").2 =
      match (([none, some (Playlist.mk "x" "Y")].filterMap
          (id : Option Playlist → Option Playlist)).head?) with
      | some p => (some p.id, some p.name)
      | none => (none, none)) ∧
    (search_playlist none "chill").2 = (none, none) ∧
    (search_playlist (some [none, some (Playlist.mk "x" "Y")]) "chill").2
      = (some "x", some "Y") :=
  search_playlist_skips_nulls [none, some (Playlist.mk "x" "Y")] "chill"
